import Mathlib

/-!
# Verification of the gadget call/response protocol

A shallow embedding of the gadget-call bridge of `gadget_standard`
(`src/rust/src/gadget_call.rs`, `src/cpp/libsnark-rust/src/libsnark_wrapper.rs`,
`src/rust/src/owned/witness.rs`), together with proofs about it.

Bytes are modelled as `Nat` (a byte is `< 256` where it matters), buffers as
`List Nat`, machine integers as `Nat` with explicit bounds.  Fallible code
returns `Option`/`Except`; a Rust `panic!` or an out-of-bounds raw-memory read
is modelled by an explicit marker constructor.
-/

namespace GadgetStandard

/-! ## The size-prefix read (`read_size_prefix` in the source)

The Rust function does `slice::from_raw_parts(ptr, 4)` unconditionally and
assembles the four bytes little-endian.  On a buffer shorter than 4 bytes this
raw read is out of bounds (undefined behaviour); the embedding marks that case
with an explicit constructor instead. -/

/-- Result of the raw 4-byte size-prefix read: either the assembled `u32`
value, or the marker that the read went past the end of the buffer. -/
inductive SizeReadResult where
  | value (n : Nat)
  | outOfBoundsRead
deriving DecidableEq, Repr

/-- Embedding of `read_size_prefix`: read 4 bytes little-endian from the start
of the buffer.  The source performs the read unconditionally; a buffer of
fewer than 4 bytes makes `slice::from_raw_parts(ptr, 4)` read out of bounds,
which the embedding represents by `SizeReadResult.outOfBoundsRead`. -/
def read_size_prefix_le (buf : List Nat) : SizeReadResult :=
  match buf with
  | b0 :: b1 :: b2 :: b3 :: _ =>
      SizeReadResult.value ((b0 <<< 0) ||| (b1 <<< 8) ||| (b2 <<< 16) ||| (b3 <<< 24))
  | _ => SizeReadResult.outOfBoundsRead

/-! ## The streaming call bridge (`call_gadget` in the source)

`call_gadget` hands the native routine two callbacks sharing one
`CallbackContext`.  The native side is external code: it is modelled as the
sequence of callback invocations it performs (each carrying the bytes the
callback copies out of the borrowed pointer) plus the boolean it returns. -/

/-- Embedding of the Rust `CallbackContext`: the accumulated stream of
intermediate messages and the optional terminal response. -/
structure CallbackContext where
  result_stream : List (List Nat)
  response : Option (List Nat)
deriving DecidableEq, Repr

/-- Embedding of `result_stream_callback_c`: push a copy of the buffer onto
the stream and report success to the native caller. -/
def result_stream_callback_c (ctx : CallbackContext) (buf : List Nat) :
    CallbackContext × Bool :=
  ({ ctx with result_stream := ctx.result_stream ++ [buf] }, true)

/-- Embedding of `response_callback_c`: store a copy of the buffer as the
response (overwriting any previous one) and report success. -/
def response_callback_c (ctx : CallbackContext) (buf : List Nat) :
    CallbackContext × Bool :=
  ({ ctx with response := some buf }, true)

/-- One callback invocation performed by the native routine, carrying the
bytes the callback copies before returning. -/
inductive NativeEvent where
  | streamMsg (buf : List Nat)
  | responseMsg (buf : List Nat)
deriving DecidableEq, Repr

/-- The observable behaviour of the external native routine during one call:
the callback invocations it performs, in order, and the boolean it returns. -/
structure NativeBehavior where
  events : List NativeEvent
  ok : Bool
deriving DecidableEq, Repr

/-- Apply one callback invocation to the context (the boolean the callback
returns is `true` in both callbacks and is dropped by the native model). -/
def applyEvent (ctx : CallbackContext) : NativeEvent → CallbackContext
  | NativeEvent.streamMsg buf => (result_stream_callback_c ctx buf).fst
  | NativeEvent.responseMsg buf => (response_callback_c ctx buf).fst

/-- Run a sequence of callback invocations over a context, in order. -/
def runEvents (ctx : CallbackContext) (evs : List NativeEvent) : CallbackContext :=
  evs.foldl applyEvent ctx

/-- Embedding of `call_gadget`: create an empty context, let the native
routine fire its callbacks into it, then return `Err` when the native routine
reported `false` and `Ok context` when it reported `true`. -/
def call_gadget (message_buf : List Nat) (native : NativeBehavior) :
    Except String CallbackContext :=
  let context : CallbackContext := { result_stream := [], response := none }
  let context := runEvents context native.events
  match native.ok with
  | false => Except.error "gadget_request failed"
  | true => Except.ok context

/-! ## The assignment iterator (`AssignedVariablesIterator::next` in the source)

Each accumulated message is decoded by the (external, generated) flatbuffers
accessors into a pair: the `variable_ids` sequence and the flat `elements`
byte sequence.  The iterator below works on those decoded pairs; the
flatbuffers decode itself is modelled separately.  The Rust `next` either
returns `None` (end), returns an item, or hits
`panic!("Empty elements data.")`; the panic is the `emptyStride` marker. -/

/-- One yielded item: `AssignedVariable { id, element }`. -/
structure AssignedVariable where
  id : Nat
  element : List Nat
deriving DecidableEq, Repr

/-- Embedding of the iterator state: the remaining messages (already decoded
to `(variable_ids, elements)` pairs) and the current message's slices with the
running index, exactly the fields of `AssignedVariablesIterator`. -/
structure IterState where
  messages : List (List Nat × List Nat)
  var_ids : List Nat
  elements : List Nat
  next_element : Nat
deriving DecidableEq, Repr

/-- Result of draining the iterator: the full list of yielded items, or the
`panic!("Empty elements data.")` marker. -/
inductive RunResult where
  | ok (items : List AssignedVariable)
  | emptyStride
deriving DecidableEq, Repr

/-- Prepend already-yielded items to the outcome of the rest of a traversal. -/
def RunResult.prepend (xs : List AssignedVariable) : RunResult → RunResult
  | RunResult.ok items => RunResult.ok (xs ++ items)
  | RunResult.emptyStride => RunResult.emptyStride

/-- The slice `elements[a..b]` of Rust on lists. -/
def sliceSE (l : List Nat) (a b : Nat) : List Nat :=
  (l.drop a).take (b - a)

/-- Drain the iterator from a state, collecting every item `next` yields, in
order.  This follows `AssignedVariablesIterator::next` line by line: while the
current message is exhausted (`next_element >= var_ids.len()`), grab the next
message or terminate; otherwise compute `stride = elements.len() /
var_ids.len()`, panic when it is zero, else yield
`(var_ids[i], elements[stride*i .. stride*(i+1)])` and advance. -/
def runIter (s : IterState) : RunResult :=
  if h : s.var_ids.length ≤ s.next_element then
    match hm : s.messages with
    | [] => RunResult.ok []
    | m :: rest => runIter ⟨rest, m.fst, m.snd, 0⟩
  else
    let stride := s.elements.length / s.var_ids.length
    if stride = 0 then RunResult.emptyStride
    else
      let i := s.next_element
      RunResult.prepend
        [⟨s.var_ids.getD i 0, sliceSE s.elements (stride * i) (stride * (i + 1))⟩]
        (runIter ⟨s.messages, s.var_ids, s.elements, i + 1⟩)
termination_by (s.messages.length, s.var_ids.length - s.next_element)
decreasing_by
  · simp [hm]
    exact Prod.Lex.left _ _ (by omega)
  · exact Prod.Lex.right _ (by omega)

/-- Drain a whole context's decoded messages, starting from the initial state
built by `iter_assignment` (`var_ids: &[]`, `elements: &[]`,
`next_element: 0`). -/
def runIterMsgs (ms : List (List Nat × List Nat)) : RunResult :=
  runIter ⟨ms, [], [], 0⟩

/-- The per-message stride, `elements.len() / variable_ids.len()`. -/
def stride_of (m : List Nat × List Nat) : Nat :=
  m.snd.length / m.fst.length

/-- The items a single message contributes, spelled out: starting at index
`k` with `n` items left, the item at index `i` is
`(variable_ids[i], elements[stride*i .. stride*(i+1)])` with the stride of
this message. -/
def yieldsFrom (ids elems : List Nat) : Nat → Nat → List AssignedVariable
  | _, 0 => []
  | k, n + 1 =>
      let stride := elems.length / ids.length
      ⟨ids.getD k 0, sliceSE elems (stride * k) (stride * (k + 1))⟩ ::
        yieldsFrom ids elems (k + 1) n

/-- All items one decoded message contributes to the traversal. -/
def messageYields (m : List Nat × List Nat) : List AssignedVariable :=
  yieldsFrom m.fst m.snd 0 m.fst.length

/-! ## The message codec

Modelled from the spec: the flatbuffers serialization layer (the generated
accessors and the `FlatBufferBuilder`) is not part of the repository sources;
the spec describes the wire format as a size-prefixed envelope (4 little-endian
bytes of payload length) around a kind-tagged payload, with the structured
payloads carrying their fields as length-prefixed sequences.  The codec below
realises that description concretely so that encoding and decoding are
executable. -/

/-- Modelled from the spec: fixed-width little-endian base-256 encoding of an
unsigned integer (`w` bytes). -/
def encodeNatLE : Nat → Nat → List Nat
  | 0, _ => []
  | w + 1, n => n % 256 :: encodeNatLE w (n / 256)

/-- Modelled from the spec: read a `w`-byte little-endian unsigned integer,
returning the value and the remaining bytes, or `none` when the buffer is too
short. -/
def decodeNatLE : Nat → List Nat → Option (Nat × List Nat)
  | 0, rest => some (0, rest)
  | _ + 1, [] => none
  | w + 1, b :: rest => (decodeNatLE w rest).map (fun p => (b + 256 * p.fst, p.snd))

/-- Modelled from the spec: a byte string, encoded as an 8-byte length
followed by the raw bytes. -/
def encodeBytes (l : List Nat) : List Nat :=
  encodeNatLE 8 l.length ++ l

/-- Modelled from the spec: decode a length-prefixed byte string. -/
def decodeBytes (buf : List Nat) : Option (List Nat × List Nat) :=
  (decodeNatLE 8 buf).bind (fun p =>
    if p.fst ≤ p.snd.length then some (p.snd.take p.fst, p.snd.drop p.fst)
    else none)

/-- Modelled from the spec: the flat concatenation of 8-byte encodings of a
sequence of `u64` values. -/
def encodeU64s (l : List Nat) : List Nat :=
  (l.map (encodeNatLE 8)).flatten

/-- Modelled from the spec: read `n` consecutive 8-byte `u64` values. -/
def decodeU64s : Nat → List Nat → Option (List Nat × List Nat)
  | 0, rest => some ([], rest)
  | n + 1, buf =>
      (decodeNatLE 8 buf).bind (fun p =>
        (decodeU64s n p.snd).map (fun q => (p.fst :: q.fst, q.snd)))

/-- Modelled from the spec: a `sequence<u64>`, encoded as an 8-byte count
followed by the elements. -/
def encodeU64List (l : List Nat) : List Nat :=
  encodeNatLE 8 l.length ++ encodeU64s l

/-- Modelled from the spec: decode a count-prefixed `u64` sequence. -/
def decodeU64List (buf : List Nat) : Option (List Nat × List Nat) :=
  (decodeNatLE 8 buf).bind (fun p => decodeU64s p.fst p.snd)

/-- Modelled from the spec: an optional field, encoded with a one-byte
presence tag. -/
def encodeOpt {α : Type} (f : α → List Nat) : Option α → List Nat
  | none => [0]
  | some x => 1 :: f x

/-- Modelled from the spec: decode an optional field from its presence tag. -/
def decodeOpt {α : Type} (f : List Nat → Option (α × List Nat)) :
    List Nat → Option (Option α × List Nat)
  | 0 :: rest => some (none, rest)
  | 1 :: rest => (f rest).map (fun p => (some p.fst, p.snd))
  | _ => none

/-- Modelled from the spec: the discriminant of the circuit-instance payload. -/
def kindInstance : Nat := 1

/-- Modelled from the spec: the discriminant of the constraint-set payload. -/
def kindConstraintSet : Nat := 2

/-- Modelled from the spec: the discriminant of the variable-assignment
(witness) payload. -/
def kindAssignment : Nat := 3

/-- Modelled from the spec: the discriminant of the call-command payload. -/
def kindCommand : Nat := 4

/-- Modelled from the spec: the discriminant of the terminal-response payload. -/
def kindResponse : Nat := 5

/-- Modelled from the spec: the envelope-level decode errors. -/
inductive EnvelopeError where
  | truncatedBuffer
  | lengthMismatch
  | unknownPayloadKind
deriving DecidableEq, Repr

/-- Modelled from the spec: wrap a kind-tagged payload in the size-prefixed
envelope; the first 4 bytes are the little-endian length of everything that
follows (the kind byte plus the payload body). -/
def encodeEnvelope (kind : Nat) (payload : List Nat) : List Nat :=
  encodeNatLE 4 (payload.length + 1) ++ kind :: payload

/-- Modelled from the spec: `decode_prefix(buffer) -> (declared_length,
payload_slice)`, failing with `TruncatedBuffer` when fewer than 4 bytes are
available and with `LengthMismatch` when `declared_length + 4 >
buffer.len()`. -/
def decode_size_prefixed (buffer : List Nat) :
    Except EnvelopeError (Nat × List Nat) :=
  match decodeNatLE 4 buffer with
  | none => Except.error EnvelopeError.truncatedBuffer
  | some (n, rest) =>
      if n + 4 > buffer.length then Except.error EnvelopeError.lengthMismatch
      else Except.ok (n, rest.take n)

/-- Modelled from the spec: split a validated envelope into the payload-kind
discriminant and the payload body. -/
def payloadOf (buffer : List Nat) : Option (Nat × List Nat) :=
  match decode_size_prefixed buffer with
  | Except.error _ => none
  | Except.ok (_, payload) =>
      match payload with
      | k :: body => some (k, body)
      | [] => none

/-- Embedding of `VariablesOwned`: the two parallel sequences of a variable
assignment, with the value bytes optional. -/
structure VariablesOwned where
  variable_ids : List Nat
  values : Option (List Nat)
deriving DecidableEq, Repr

/-- Embedding of `WitnessOwned` (`src/rust/src/owned/witness.rs`). -/
structure WitnessOwned where
  assigned_variables : VariablesOwned
deriving DecidableEq, Repr

/-- Embedding of `InstanceDescription` (`src/rust/src/gadget_call.rs`), the
gadget instance description handed to `build`. -/
structure InstanceDescription where
  gadget_name : List Nat
  incoming_variable_ids : List Nat
  outgoing_variable_ids : Option (List Nat)
  free_variable_id_before : Nat
  field_order : Option (List Nat)
deriving DecidableEq, Repr

/-- Modelled from the spec: serialise the two parallel sequences of a
variable assignment. -/
def encodeVariables (v : VariablesOwned) : List Nat :=
  encodeU64List v.variable_ids ++ encodeOpt encodeBytes v.values

/-- Modelled from the spec: decode the two parallel sequences of a variable
assignment. -/
def decodeVariables (buf : List Nat) : Option (VariablesOwned × List Nat) :=
  (decodeU64List buf).bind (fun p =>
    (decodeOpt decodeBytes p.snd).map (fun q => (⟨p.fst, q.fst⟩, q.snd)))

/-- Modelled from the spec: the encoded payload body of a gadget instance
description, fields in declaration order. -/
def encodeInstancePayload (x : InstanceDescription) : List Nat :=
  encodeBytes x.gadget_name ++
  encodeU64List x.incoming_variable_ids ++
  encodeOpt encodeU64List x.outgoing_variable_ids ++
  encodeNatLE 8 x.free_variable_id_before ++
  encodeOpt encodeBytes x.field_order

/-- Modelled from the spec: decode the payload body of a gadget instance
description. -/
def decodeInstancePayload (buf : List Nat) :
    Option (InstanceDescription × List Nat) :=
  (decodeBytes buf).bind (fun p1 =>
  (decodeU64List p1.snd).bind (fun p2 =>
  (decodeOpt decodeU64List p2.snd).bind (fun p3 =>
  (decodeNatLE 8 p3.snd).bind (fun p4 =>
  (decodeOpt decodeBytes p4.snd).map (fun p5 =>
    (⟨p1.fst, p2.fst, p3.fst, p4.fst, p5.fst⟩, p5.snd))))))

/-- Modelled from the spec: the full size-prefixed message of a gadget
instance description (`InstanceDescription::build` followed by
`finish_size_prefixed`). -/
def encodeInstanceMessage (x : InstanceDescription) : List Nat :=
  encodeEnvelope kindInstance (encodeInstancePayload x)

/-- Modelled from the spec: decode a buffer as a gadget instance description,
`none` when the buffer is not a valid instance message. -/
def message_as_instance (buffer : List Nat) : Option InstanceDescription :=
  (payloadOf buffer).bind (fun p =>
    if p.fst = kindInstance then (decodeInstancePayload p.snd).map Prod.fst
    else none)

/-- Modelled from the spec: the full size-prefixed witness message
(`WitnessOwned::build` followed by `finish_size_prefixed`). -/
def encodeWitnessMessage (w : WitnessOwned) : List Nat :=
  encodeEnvelope kindAssignment (encodeVariables w.assigned_variables)

/-- Modelled from the spec: decode a buffer as a witness message
(`WitnessOwned::try_from`), `none` when it is not a witness message. -/
def message_as_witness (buffer : List Nat) : Option WitnessOwned :=
  (payloadOf buffer).bind (fun p =>
    if p.fst = kindAssignment then
      (decodeVariables p.snd).map (fun q => ⟨q.fst⟩)
    else none)

/-- Modelled from the spec: decode a buffer as an assigned-variables message
for the iterator (`message_as_assigned_variables().unwrap().values()` chain):
the variable ids and the element bytes, `none` modelling the `unwrap` panic
when the message is not an assignment or carries no values. -/
def message_as_assigned_variables (buffer : List Nat) :
    Option (List Nat × List Nat) :=
  (message_as_witness buffer).bind (fun w =>
    match w.assigned_variables.values with
    | some elems => some (w.assigned_variables.variable_ids, elems)
    | none => none)

/-- Modelled from the spec: the terminal-response message carrying
`free_variable_id_after`. -/
def encodeResponseMessage (free_variable_id_after : Nat) : List Nat :=
  encodeEnvelope kindResponse (encodeNatLE 8 free_variable_id_after)

/-- Modelled from the spec: decode the terminal buffer as an assignment
response (`message_as_assignment_response`), extracting
`free_variable_id_after`. -/
def message_as_assignment_response (buffer : List Nat) : Option Nat :=
  (payloadOf buffer).bind (fun p =>
    if p.fst = kindResponse then (decodeNatLE 8 p.snd).map Prod.fst
    else none)

/-- Embedding of `AssignmentContext`, the newtype the caller receives around
the callback context. -/
structure AssignmentContext where
  ctx : CallbackContext
deriving DecidableEq, Repr

/-- Embedding of `AssignmentContext::response`: decode the stored terminal
buffer, if any, as an assignment response. -/
def AssignmentContext.response (a : AssignmentContext) : Option Nat :=
  a.ctx.response.bind message_as_assignment_response

/-- Decode every accumulated stream message of a context for the iterator;
`none` models the `unwrap` panic on an undecodable message. -/
def iterMessagesOf (ctx : CallbackContext) : Option (List (List Nat × List Nat)) :=
  ctx.result_stream.mapM message_as_assigned_variables

/-- Embedding of `AssignmentContext::iter_assignment` followed by a full
drain of the returned iterator: the traversal is re-derived from the owned
buffers each time it is requested. -/
def AssignmentContext.iter_assignment (a : AssignmentContext) : Option RunResult :=
  (iterMessagesOf a.ctx).map runIterMsgs

/-- Recognise the terminal-response callback among the native events. -/
def isTerminalEvent : NativeEvent → Bool
  | NativeEvent.responseMsg _ => true
  | NativeEvent.streamMsg _ => false

/-- Boundedness of the `u64` fields and sequence lengths of a variable
assignment, as the wire format requires. -/
def VariablesOwned.wf (v : VariablesOwned) : Prop :=
  v.variable_ids.length < 2 ^ 64 ∧
  (∀ i ∈ v.variable_ids, i < 2 ^ 64) ∧
  (v.values.getD []).length < 2 ^ 64

instance (v : VariablesOwned) : Decidable v.wf := by
  unfold VariablesOwned.wf
  infer_instance

/-- Boundedness of a witness message: its assignment is bounded and its
payload fits the 4-byte envelope prefix. -/
def WitnessOwned.wf (w : WitnessOwned) : Prop :=
  w.assigned_variables.wf ∧
  (encodeVariables w.assigned_variables).length + 1 < 2 ^ 32

instance (w : WitnessOwned) : Decidable w.wf := by
  unfold WitnessOwned.wf
  infer_instance

/-- Boundedness of the `u64` fields and sequence lengths of a gadget instance
description, and of its payload against the 4-byte envelope prefix. -/
def InstanceDescription.wf (x : InstanceDescription) : Prop :=
  x.gadget_name.length < 2 ^ 64 ∧
  x.incoming_variable_ids.length < 2 ^ 64 ∧
  (∀ i ∈ x.incoming_variable_ids, i < 2 ^ 64) ∧
  (x.outgoing_variable_ids.getD []).length < 2 ^ 64 ∧
  (∀ i ∈ x.outgoing_variable_ids.getD [], i < 2 ^ 64) ∧
  x.free_variable_id_before < 2 ^ 64 ∧
  (x.field_order.getD []).length < 2 ^ 64 ∧
  (encodeInstancePayload x).length + 1 < 2 ^ 32

instance (x : InstanceDescription) : Decidable x.wf := by
  unfold InstanceDescription.wf
  infer_instance

/-- An instance description with `free_variable_id_before = 104`, matching
the scenario of the repository's own test. -/
def inst104 : InstanceDescription :=
  InstanceDescription.mk [103, 97, 100] [100, 101, 102, 103] none 104 none

end GadgetStandard

namespace GadgetStandard

/-- On buffers of at least 4 bytes the read returns the little-endian value of
the first four bytes. -/
theorem read_size_prefix_le_value (b0 b1 b2 b3 : Nat) (rest : List Nat) :
    read_size_prefix_le (b0 :: b1 :: b2 :: b3 :: rest) =
      SizeReadResult.value ((b0 <<< 0) ||| (b1 <<< 8) ||| (b2 <<< 16) ||| (b3 <<< 24)) :=
  rfl

/-- The function `runEvents` distributes over list append. -/
theorem runEvents_append (ctx : CallbackContext) (evs₁ evs₂ : List NativeEvent) :
    runEvents ctx (evs₁ ++ evs₂) = runEvents (runEvents ctx evs₁) evs₂ :=
  List.foldl_append ..

/-- A stream-message event leaves the stored response unchanged. -/
theorem applyEvent_streamMsg_response (ctx : CallbackContext) (buf : List Nat) :
    (applyEvent ctx (NativeEvent.streamMsg buf)).response = ctx.response :=
  rfl

/-- Prepending nothing leaves a traversal outcome unchanged. -/
theorem RunResult.prepend_nil (r : RunResult) : RunResult.prepend [] r = r := by
  cases r <;> rfl

/-- Prepending twice is prepending the concatenation. -/
theorem RunResult.prepend_prepend (xs ys : List AssignedVariable) (r : RunResult) :
    RunResult.prepend xs (RunResult.prepend ys r) = RunResult.prepend (xs ++ ys) r := by
  cases r <;> simp [RunResult.prepend]

/-- Prepending onto the panic outcome stays the panic outcome. -/
theorem RunResult.prepend_emptyStride (xs : List AssignedVariable) :
    RunResult.prepend xs RunResult.emptyStride = RunResult.emptyStride :=
  rfl

/-- With no message left and the current slices exhausted, the iterator
terminates with the empty yield. -/
theorem runIter_done (ids elems : List Nat) (k : Nat) (h : ids.length ≤ k) :
    runIter ⟨[], ids, elems, k⟩ = RunResult.ok [] := by
  rw [runIter.eq_def]
  simp [h]

/-- With the current slices exhausted, the iterator grabs the next message and
restarts its index at 0. -/
theorem runIter_skip (m : List Nat × List Nat) (rest : List (List Nat × List Nat))
    (ids elems : List Nat) (k : Nat) (h : ids.length ≤ k) :
    runIter ⟨m :: rest, ids, elems, k⟩ = runIter ⟨rest, m.fst, m.snd, 0⟩ := by
  rw [runIter.eq_def]
  simp [h]

/-- With the current slices exhausted, draining the iterator is draining the
remaining messages from the initial state. -/
theorem runIter_exhausted (ms : List (List Nat × List Nat)) (ids elems : List Nat)
    (k : Nat) (h : ids.length ≤ k) :
    runIter ⟨ms, ids, elems, k⟩ = runIterMsgs ms := by
  cases ms with
  | nil => rw [runIter_done ids elems k h, runIterMsgs, runIter_done] <;> simp
  | cons m rest =>
      rw [runIter_skip m rest ids elems k h, runIterMsgs,
        runIter_skip m rest [] [] 0 (by simp)]

/-- In the middle of a message whose stride computes to zero, the iterator
hits the `panic!("Empty elements data.")` marker. -/
theorem runIter_strideZero (ms : List (List Nat × List Nat)) (ids elems : List Nat)
    (k : Nat) (hk : k < ids.length) (hs : elems.length / ids.length = 0) :
    runIter ⟨ms, ids, elems, k⟩ = RunResult.emptyStride := by
  rw [runIter.eq_def]
  simp [Nat.not_le.mpr hk, hs]

/-- In the middle of a message with a non-zero stride, the iterator yields the
item at the current index and advances. -/
theorem runIter_yield (ms : List (List Nat × List Nat)) (ids elems : List Nat)
    (k : Nat) (hk : k < ids.length) (hs : elems.length / ids.length ≠ 0) :
    runIter ⟨ms, ids, elems, k⟩ =
      RunResult.prepend
        [⟨ids.getD k 0,
          sliceSE elems (elems.length / ids.length * k)
            (elems.length / ids.length * (k + 1))⟩]
        (runIter ⟨ms, ids, elems, k + 1⟩) := by
  rw [runIter.eq_def]
  simp [Nat.not_le.mpr hk, hs]

/-- Draining the iterator from index `k` of a well-strided message yields the
remaining items of that message followed by the yields of the remaining
messages. -/
theorem runIter_row (ms : List (List Nat × List Nat)) (ids elems : List Nat)
    (k : Nat) (hs : ids ≠ [] → elems.length / ids.length ≠ 0) :
    runIter ⟨ms, ids, elems, k⟩ =
      RunResult.prepend (yieldsFrom ids elems k (ids.length - k)) (runIterMsgs ms) := by
  generalize hn : ids.length - k = n
  induction n generalizing k with
  | zero =>
      rw [runIter_exhausted ms ids elems k (by omega), yieldsFrom,
        RunResult.prepend_nil]
  | succ n ih =>
      have hk : k < ids.length := by omega
      have hids : ids ≠ [] := by
        intro h
        rw [h] at hk
        simp at hk
      rw [runIter_yield ms ids elems k hk (hs hids),
        ih (k + 1) (by omega)]
      rw [show yieldsFrom ids elems k (n + 1) =
          ⟨ids.getD k 0,
            sliceSE elems (elems.length / ids.length * k)
              (elems.length / ids.length * (k + 1))⟩ ::
            yieldsFrom ids elems (k + 1) n from rfl,
        RunResult.prepend_prepend]
      rfl

/-- C3: the assignment iterator walks the accumulated messages in receipt
order and, within each message with non-empty `variable_ids`, yields exactly
`variable_ids.len()` pairs, the i-th being
`(variable_ids[i], elements[stride*i .. stride*(i+1)])` with
`stride = elements.len() / variable_ids.len()` computed from that message
alone; the stride of one message is never reused for the next. -/
theorem assignment_iterator_per_message_stride
    (ms : List (List Nat × List Nat))
    (h : ∀ m ∈ ms, m.fst = [] ∨ stride_of m ≠ 0) :
    runIterMsgs ms = RunResult.ok (ms.flatMap messageYields) := by
  induction ms with
  | nil =>
      rw [runIterMsgs, runIter_done [] [] 0 (by simp)]
      rfl
  | cons m rest ih =>
      have hm := h m (List.mem_cons_self m rest)
      rw [runIterMsgs, runIter_skip m rest [] [] 0 (by simp)]
      rcases hm with hm | hm
      · rw [runIter_exhausted rest m.fst m.snd 0 (by simp [hm]),
          ih (fun x hx => h x (List.mem_cons_of_mem m hx))]
        simp [messageYields, hm, yieldsFrom]
      · rw [runIter_row rest m.fst m.snd 0 (fun _ => hm),
          ih (fun x hx => h x (List.mem_cons_of_mem m hx))]
        simp [RunResult.prepend, messageYields]

/-- Witness for C3 at a concrete context of two messages with strides 2 and
3 respectively. -/
theorem assignment_iterator_per_message_stride_witness :
    runIterMsgs [([10, 11], [1, 2, 3, 4]), ([20], [5, 6, 7])] =
      RunResult.ok [⟨10, [1, 2]⟩, ⟨11, [3, 4]⟩, ⟨20, [5, 6, 7]⟩] := by
  rw [assignment_iterator_per_message_stride
    [([10, 11], [1, 2, 3, 4]), ([20], [5, 6, 7])] (by decide)]
  rfl

/-- C4: if some message has non-empty `variable_ids` but its stride
`elements.len() / variable_ids.len()` computes to zero, the traversal ends in
the fatal empty-stride marker (`panic!("Empty elements data.")` in the
source) and yields no element of that message. -/
theorem assignment_iterator_empty_stride_fatal
    (ms : List (List Nat × List Nat))
    (h : ∃ m ∈ ms, m.fst ≠ [] ∧ stride_of m = 0) :
    runIterMsgs ms = RunResult.emptyStride := by
  induction ms with
  | nil => simp at h
  | cons m rest ih =>
      rw [runIterMsgs, runIter_skip m rest [] [] 0 (by simp)]
      obtain ⟨m', hm', hbad⟩ := h
      by_cases hb : m.fst ≠ [] ∧ stride_of m = 0
      · exact runIter_strideZero rest m.fst m.snd 0
          (List.length_pos.mpr hb.1) hb.2
      · have hrest : ∃ x ∈ rest, x.fst ≠ [] ∧ stride_of x = 0 := by
          rcases List.mem_cons.mp hm' with rfl | hmem
          · exact absurd hbad hb
          · exact ⟨m', hmem, hbad⟩
        push_neg at hb
        by_cases hfst : m.fst = []
        · rw [runIter_exhausted rest m.fst m.snd 0 (by simp [hfst])]
          exact ih hrest
        · rw [runIter_row rest m.fst m.snd 0 (fun _ => hb hfst), ih hrest]
          rfl

/-- Witness for C4 at a message with one variable id and no element bytes. -/
theorem assignment_iterator_empty_stride_fatal_witness :
    runIterMsgs [([1], [])] = RunResult.emptyStride :=
  assignment_iterator_empty_stride_fatal [([1], [])] (by decide)

/-- C10: a message whose `variable_ids` list is empty is skipped without
yielding anything; the stride division `elements.len() / variable_ids.len()`
sits under the loop-exit guard `next_element < var_ids.len()`, which forces a
positive divisor; and the traversal of an exhausted message list terminates
with the empty yield. -/
theorem assignment_iterator_guarded_division
    (e : List Nat) (ms : List (List Nat × List Nat))
    (s : IterState) (hdiv : s.next_element < s.var_ids.length) :
    runIterMsgs (([], e) :: ms) = runIterMsgs ms ∧
    0 < s.var_ids.length ∧
    runIterMsgs [] = RunResult.ok [] := by
  refine ⟨?_, by omega, by rw [runIterMsgs, runIter_done [] [] 0 (by simp)]⟩
  rw [runIterMsgs, runIter_skip ([], e) ms [] [] 0 (by simp)]
  exact runIter_exhausted ms [] e 0 (by simp)

/-- Witness for C10 at a concrete skipped message and a concrete state
sitting at the stride division. -/
theorem assignment_iterator_guarded_division_witness :
    runIterMsgs [([], [7])] = runIterMsgs [] ∧
    0 < (IterState.mk [] [3] [9] 0).var_ids.length ∧
    runIterMsgs [] = RunResult.ok [] :=
  assignment_iterator_guarded_division [7] []
    (IterState.mk [] [3] [9] 0) (by decide)

/-- A fixed-width encoding has exactly its width many bytes. -/
theorem encodeNatLE_length (w n : Nat) : (encodeNatLE w n).length = w := by
  induction w generalizing n with
  | zero => rfl
  | succ w ih => simp [encodeNatLE, ih]

/-- Reading back a fixed-width little-endian encoding recovers the value
modulo the width. -/
theorem decodeNatLE_encodeNatLE (w n : Nat) (rest : List Nat) :
    decodeNatLE w (encodeNatLE w n ++ rest) = some (n % 256 ^ w, rest) := by
  induction w generalizing n with
  | zero => simp [encodeNatLE, decodeNatLE, Nat.mod_one]
  | succ w ih =>
      simp only [encodeNatLE, List.cons_append, decodeNatLE, List.append_eq]
      rw [ih (n / 256)]
      simp [pow_succ', Nat.mod_mul]

/-- Reading back the fixed-width encoding of an in-range value recovers it
exactly. -/
theorem decodeNatLE_encodeNatLE_of_lt (w n : Nat) (rest : List Nat)
    (h : n < 256 ^ w) :
    decodeNatLE w (encodeNatLE w n ++ rest) = some (n, rest) := by
  rw [decodeNatLE_encodeNatLE, Nat.mod_eq_of_lt h]

/-- Round trip of the length-prefixed byte-string field. -/
theorem decodeBytes_encodeBytes (l rest : List Nat) (h : l.length < 2 ^ 64) :
    decodeBytes (encodeBytes l ++ rest) = some (l, rest) := by
  have e : (256 : Nat) ^ 8 = 2 ^ 64 := by norm_num
  unfold encodeBytes decodeBytes
  rw [List.append_assoc, decodeNatLE_encodeNatLE_of_lt 8 l.length (l ++ rest)
    (by rw [e]; exact h)]
  simp [List.take_left, List.drop_left]

/-- Unfolding of the flat `u64` sequence encoding at a cons cell. -/
theorem encodeU64s_cons (a : Nat) (t : List Nat) :
    encodeU64s (a :: t) = encodeNatLE 8 a ++ encodeU64s t := by
  simp [encodeU64s]

/-- Round trip of a counted sequence of in-range `u64` values. -/
theorem decodeU64s_encodeU64s (l rest : List Nat) (h : ∀ a ∈ l, a < 2 ^ 64) :
    decodeU64s l.length (encodeU64s l ++ rest) = some (l, rest) := by
  have e : (256 : Nat) ^ 8 = 2 ^ 64 := by norm_num
  induction l with
  | nil => simp [encodeU64s, decodeU64s]
  | cons a t ih =>
      rw [List.length_cons, encodeU64s_cons, List.append_assoc]
      simp only [decodeU64s]
      rw [decodeNatLE_encodeNatLE_of_lt 8 a _
        (by rw [e]; exact h a (List.mem_cons_self a t))]
      simp [ih (fun x hx => h x (List.mem_cons_of_mem a hx))]

/-- Round trip of the count-prefixed `u64` sequence field. -/
theorem decodeU64List_encodeU64List (l rest : List Nat)
    (hlen : l.length < 2 ^ 64) (h : ∀ a ∈ l, a < 2 ^ 64) :
    decodeU64List (encodeU64List l ++ rest) = some (l, rest) := by
  have e : (256 : Nat) ^ 8 = 2 ^ 64 := by norm_num
  unfold encodeU64List decodeU64List
  rw [List.append_assoc, decodeNatLE_encodeNatLE_of_lt 8 l.length _
    (by rw [e]; exact hlen)]
  simp [decodeU64s_encodeU64s l rest h]

/-- Round trip of an optional field, given a round trip for the inner
codec. -/
theorem decodeOpt_encodeOpt {α : Type} (f : α → List Nat)
    (g : List Nat → Option (α × List Nat)) (o : Option α) (rest : List Nat)
    (hr : ∀ x, o = some x → g (f x ++ rest) = some (x, rest)) :
    decodeOpt g (encodeOpt f o ++ rest) = some (o, rest) := by
  cases o with
  | none => simp [encodeOpt, decodeOpt]
  | some x =>
      simp only [encodeOpt, List.cons_append, decodeOpt]
      rw [hr x rfl]
      rfl

/-- Decoding the envelope around an encoded payload recovers the declared
length and the full payload slice. -/
theorem decode_size_prefixed_encodeEnvelope (k : Nat) (payload : List Nat)
    (h : payload.length + 1 < 2 ^ 32) :
    decode_size_prefixed (encodeEnvelope k payload) =
      Except.ok (payload.length + 1, k :: payload) := by
  have e : (256 : Nat) ^ 4 = 2 ^ 32 := by norm_num
  have hlen : (encodeNatLE 4 (payload.length + 1) ++ k :: payload).length =
      payload.length + 5 := by
    simp [encodeNatLE_length]
    omega
  unfold encodeEnvelope decode_size_prefixed
  rw [decodeNatLE_encodeNatLE_of_lt 4 (payload.length + 1) _ (by rw [e]; exact h)]
  simp only [hlen]
  rw [if_neg (by omega)]
  rw [List.take_succ_cons, List.take_length]

/-- Splitting the envelope around an encoded payload recovers the kind
discriminant and the payload body. -/
theorem payloadOf_encodeEnvelope (k : Nat) (payload : List Nat)
    (h : payload.length + 1 < 2 ^ 32) :
    payloadOf (encodeEnvelope k payload) = some (k, payload) := by
  unfold payloadOf
  rw [decode_size_prefixed_encodeEnvelope k payload h]

/-- Round trip of the two parallel sequences of a variable assignment. -/
theorem decodeVariables_encodeVariables (v : VariablesOwned) (rest : List Nat)
    (hv : v.wf) :
    decodeVariables (encodeVariables v ++ rest) = some (v, rest) := by
  obtain ⟨h1, h2, h3⟩ := hv
  unfold encodeVariables decodeVariables
  rw [List.append_assoc, decodeU64List_encodeU64List _ _ h1 h2]
  simp only [Option.bind]
  rw [decodeOpt_encodeOpt encodeBytes decodeBytes v.values rest
    (fun x hx => decodeBytes_encodeBytes x rest (by rw [hx] at h3; simpa using h3))]
  rfl

/-- Round trip of the gadget-instance payload body. -/
theorem decodeInstancePayload_encodeInstancePayload (x : InstanceDescription)
    (rest : List Nat) (hx : x.wf) :
    decodeInstancePayload (encodeInstancePayload x ++ rest) = some (x, rest) := by
  obtain ⟨h1, h2, h3, h4, h5, h6, h7, _⟩ := hx
  have e : (256 : Nat) ^ 8 = 2 ^ 64 := by norm_num
  unfold encodeInstancePayload decodeInstancePayload
  simp only [List.append_assoc]
  rw [decodeBytes_encodeBytes _ _ h1]
  simp only [Option.bind]
  rw [decodeU64List_encodeU64List _ _ h2 h3]
  simp only [Option.bind]
  rw [decodeOpt_encodeOpt encodeU64List decodeU64List x.outgoing_variable_ids _
    (fun ids hids => decodeU64List_encodeU64List ids _
      (by rw [hids] at h4; simpa using h4)
      (by rw [hids] at h5; simpa using h5))]
  simp only [Option.bind]
  rw [decodeNatLE_encodeNatLE_of_lt 8 _ _ (by rw [e]; exact h6)]
  simp only [Option.bind]
  rw [decodeOpt_encodeOpt encodeBytes decodeBytes x.field_order rest
    (fun fo hfo => decodeBytes_encodeBytes fo rest (by rw [hfo] at h7; simpa using h7))]
  rfl

/-- Round trip of the full size-prefixed witness message. -/
theorem message_as_witness_roundtrip (w : WitnessOwned) (hw : w.wf) :
    message_as_witness (encodeWitnessMessage w) = some w := by
  unfold message_as_witness encodeWitnessMessage
  rw [payloadOf_encodeEnvelope _ _ hw.2]
  simp only [Option.bind, if_pos rfl]
  have h := decodeVariables_encodeVariables w.assigned_variables [] hw.1
  rw [List.append_nil] at h
  rw [h]
  rfl

/-- Round trip of the full size-prefixed gadget-instance message. -/
theorem message_as_instance_roundtrip (x : InstanceDescription) (hx : x.wf) :
    message_as_instance (encodeInstanceMessage x) = some x := by
  unfold message_as_instance encodeInstanceMessage
  rw [payloadOf_encodeEnvelope _ _ hx.2.2.2.2.2.2.2]
  simp only [Option.bind, if_pos rfl]
  have h := decodeInstancePayload_encodeInstancePayload x [] hx
  rw [List.append_nil] at h
  rw [h]
  rfl

/-- Round trip of the terminal-response message. -/
theorem message_as_assignment_response_roundtrip (v : Nat) (hv : v < 2 ^ 64) :
    message_as_assignment_response (encodeResponseMessage v) = some v := by
  have e : (256 : Nat) ^ 8 = 2 ^ 64 := by norm_num
  unfold message_as_assignment_response encodeResponseMessage
  rw [payloadOf_encodeEnvelope _ _ (by simp [encodeNatLE_length])]
  simp only [Option.bind, if_pos rfl]
  have h := decodeNatLE_encodeNatLE_of_lt 8 v [] (by rw [e]; exact hv)
  rw [List.append_nil] at h
  rw [h]
  rfl

/-- C5: decoding the encoding of a gadget instance description, and likewise
of a witness, yields the original value field for field. -/
theorem codec_roundtrip (x : InstanceDescription) (w : WitnessOwned)
    (hx : x.wf) (hw : w.wf) :
    message_as_instance (encodeInstanceMessage x) = some x ∧
    message_as_witness (encodeWitnessMessage w) = some w :=
  ⟨message_as_instance_roundtrip x hx, message_as_witness_roundtrip w hw⟩

/-- Witness for C5 at a concrete instance description and witness value. -/
theorem codec_roundtrip_witness :
    (InstanceDescription.mk [115, 104, 97] [100, 101] (some [102]) 103 none).wf ∧
    (WitnessOwned.mk (VariablesOwned.mk [103, 104] (some [10, 11, 12, 8, 7, 6]))).wf ∧
    message_as_instance (encodeInstanceMessage
      (InstanceDescription.mk [115, 104, 97] [100, 101] (some [102]) 103 none)) =
      some (InstanceDescription.mk [115, 104, 97] [100, 101] (some [102]) 103 none) ∧
    message_as_witness (encodeWitnessMessage
      (WitnessOwned.mk (VariablesOwned.mk [103, 104] (some [10, 11, 12, 8, 7, 6])))) =
      some (WitnessOwned.mk (VariablesOwned.mk [103, 104] (some [10, 11, 12, 8, 7, 6]))) := by
  refine ⟨by decide, by decide, ?_, ?_⟩
  · exact (codec_roundtrip _ (WitnessOwned.mk (VariablesOwned.mk [] none))
      (by decide) (by decide)).1
  · exact (codec_roundtrip (InstanceDescription.mk [] [] none 0 none) _
      (by decide) (by decide)).2

/-- C8: the assignment traversal is a pure function of the owned stream
buffers: any two contexts holding the same accumulated buffers (whatever
their terminal message and however often they have been traversed before)
yield the same sequence of records. -/
theorem iter_assignment_pure (a b : AssignmentContext)
    (h : a.ctx.result_stream = b.ctx.result_stream) :
    AssignmentContext.iter_assignment a = AssignmentContext.iter_assignment b := by
  unfold AssignmentContext.iter_assignment iterMessagesOf
  rw [h]

/-- Witness for C8: two contexts with the same stream buffers but different
terminal messages traverse identically. -/
theorem iter_assignment_pure_witness :
    AssignmentContext.iter_assignment
        (AssignmentContext.mk (CallbackContext.mk [[0]] none)) =
      AssignmentContext.iter_assignment
        (AssignmentContext.mk (CallbackContext.mk [[0]] (some [9]))) :=
  iter_assignment_pure
    (AssignmentContext.mk (CallbackContext.mk [[0]] none))
    (AssignmentContext.mk (CallbackContext.mk [[0]] (some [9]))) rfl

/-- C1 counterexample: a buffer of length 2 makes the size-prefix decoder
perform an out-of-bounds read (the unconditional `slice::from_raw_parts(ptr,
4)`); it does not fail with a `TruncatedBuffer` error, because no such error
path exists in the code. -/
theorem read_size_prefix_oob_cex :
    read_size_prefix_le [1, 2] = SizeReadResult.outOfBoundsRead :=
  rfl

/-- C1 amended: for every buffer of fewer than 4 bytes the size-prefix read
is an out-of-bounds raw memory access (undefined behaviour), not a
`TruncatedBuffer` failure; on buffers of at least 4 bytes it returns the
little-endian value of the first four bytes. -/
theorem read_size_prefix_unchecked (buf : List Nat) :
    (buf.length < 4 → read_size_prefix_le buf = SizeReadResult.outOfBoundsRead) ∧
    (∀ b0 b1 b2 b3 rest, buf = b0 :: b1 :: b2 :: b3 :: rest →
      read_size_prefix_le buf =
        SizeReadResult.value
          ((b0 <<< 0) ||| (b1 <<< 8) ||| (b2 <<< 16) ||| (b3 <<< 24))) := by
  constructor
  · intro h
    match buf, h with
    | [], _ => rfl
    | [_], _ => rfl
    | [_, _], _ => rfl
    | [_, _, _], _ => rfl
    | _ :: _ :: _ :: _ :: _, h =>
        simp only [List.length_cons] at h
        omega
  · rintro b0 b1 b2 b3 rest rfl
    rfl

/-- Witness for C1's amended statement at a 3-byte and a 5-byte buffer. -/
theorem read_size_prefix_unchecked_witness :
    read_size_prefix_le [1, 2, 3] = SizeReadResult.outOfBoundsRead ∧
    read_size_prefix_le [1, 0, 0, 0, 9] = SizeReadResult.value 1 := by
  constructor
  · exact (read_size_prefix_unchecked [1, 2, 3]).1 (by decide)
  · rw [(read_size_prefix_unchecked [1, 0, 0, 0, 9]).2 1 0 0 0 [9] rfl]
    decide

/-- C2: when the native routine reports failure, `call_gadget` returns the
`CallFailed` error carrying no accumulated context, however many callbacks
fired beforehand; when it reports success, the accumulated context is
returned. -/
theorem call_gadget_all_or_nothing (msg : List Nat) (nb : NativeBehavior) :
    (nb.ok = false → call_gadget msg nb = Except.error "gadget_request failed") ∧
    (nb.ok = true →
      call_gadget msg nb =
        Except.ok (runEvents (CallbackContext.mk [] none) nb.events)) := by
  constructor <;> intro h <;> simp [call_gadget, h]

/-- Witness for C2: a failing call with two prior stream callbacks, and a
succeeding call. -/
theorem call_gadget_all_or_nothing_witness :
    call_gadget [9]
        (NativeBehavior.mk [NativeEvent.streamMsg [1], NativeEvent.streamMsg [2]] false) =
      Except.error "gadget_request failed" ∧
    call_gadget [9] (NativeBehavior.mk [NativeEvent.streamMsg [1]] true) =
      Except.ok (runEvents (CallbackContext.mk [] none) [NativeEvent.streamMsg [1]]) :=
  ⟨(call_gadget_all_or_nothing [9] _).1 rfl,
   (call_gadget_all_or_nothing [9] _).2 rfl⟩

/-- C6 counterexample: the terminal callback fired twice in one call simply
overwrites the stored terminal message with the second one and still reports
success; no `DuplicateTerminal` protocol violation is surfaced. -/
theorem duplicate_terminal_cex :
    call_gadget [9]
        (NativeBehavior.mk
          [NativeEvent.responseMsg [1], NativeEvent.responseMsg [2]] true) =
      Except.ok (CallbackContext.mk [] (some [2])) ∧
    (response_callback_c (CallbackContext.mk [] (some [1])) [2]).snd = true := by
  constructor <;> rfl

/-- C6 amended: a second invocation of the terminal-response callback
overwrites the stored terminal message (the last one wins) and the call still
succeeds; no error is raised. -/
theorem duplicate_terminal_overwrites (msg : List Nat) (nb : NativeBehavior)
    (evs : List NativeEvent) (b : List Nat)
    (he : nb.events = evs ++ [NativeEvent.responseMsg b]) (hok : nb.ok = true) :
    call_gadget msg nb =
      Except.ok (runEvents (CallbackContext.mk [] none) nb.events) ∧
    (runEvents (CallbackContext.mk [] none) nb.events).response = some b := by
  refine ⟨by simp [call_gadget, hok], ?_⟩
  rw [he, runEvents_append]
  rfl

/-- Witness for C6's amended statement: the second of two terminal callbacks
wins. -/
theorem duplicate_terminal_overwrites_witness :
    call_gadget [9]
        (NativeBehavior.mk
          [NativeEvent.streamMsg [5], NativeEvent.responseMsg [1],
            NativeEvent.responseMsg [2]] true) =
      Except.ok (runEvents (CallbackContext.mk [] none)
        [NativeEvent.streamMsg [5], NativeEvent.responseMsg [1],
          NativeEvent.responseMsg [2]]) ∧
    (runEvents (CallbackContext.mk [] none)
        [NativeEvent.streamMsg [5], NativeEvent.responseMsg [1],
          NativeEvent.responseMsg [2]]).response = some [2] :=
  duplicate_terminal_overwrites [9] _
    [NativeEvent.streamMsg [5], NativeEvent.responseMsg [1]] [2] rfl rfl

/-- C7 counterexample: a call whose native routine succeeds without ever
firing the terminal callback returns `Ok` with `response = None`, and
`AssignmentContext::response` then returns `None` as a legitimate empty
result; no `MissingTerminal` protocol-violation error exists. -/
theorem missing_terminal_cex :
    call_gadget [9] (NativeBehavior.mk [NativeEvent.streamMsg [1]] true) =
      Except.ok (CallbackContext.mk [[1]] none) ∧
    AssignmentContext.response
        (AssignmentContext.mk (CallbackContext.mk [[1]] none)) = none := by
  constructor <;> rfl

/-- The accumulated response stays absent when no terminal callback fires. -/
theorem runEvents_response_of_no_terminal (ctx : CallbackContext)
    (evs : List NativeEvent)
    (h : evs.all (fun e => !(isTerminalEvent e)) = true) :
    (runEvents ctx evs).response = ctx.response := by
  induction evs generalizing ctx with
  | nil => rfl
  | cons e t ih =>
      simp only [List.all_cons, Bool.and_eq_true] at h
      cases e with
      | streamMsg b =>
          rw [runEvents, List.foldl_cons]
          exact ih (applyEvent ctx (NativeEvent.streamMsg b)) h.2
      | responseMsg b => simp [isTerminalEvent] at h

/-- C7 amended: a successful call in which the terminal callback never fired
yields `Ok` with an absent terminal message, and the decoded terminal outcome
is `None`; the code treats this as an ordinary empty result rather than a
`MissingTerminal` protocol violation. -/
theorem missing_terminal_is_none (msg : List Nat) (nb : NativeBehavior)
    (hok : nb.ok = true)
    (hnone : nb.events.all (fun e => !(isTerminalEvent e)) = true) :
    ∃ ctx, call_gadget msg nb = Except.ok ctx ∧ ctx.response = none ∧
      AssignmentContext.response (AssignmentContext.mk ctx) = none := by
  refine ⟨runEvents (CallbackContext.mk [] none) nb.events,
    by simp [call_gadget, hok], ?_, ?_⟩
  · exact runEvents_response_of_no_terminal _ _ hnone
  · unfold AssignmentContext.response
    rw [runEvents_response_of_no_terminal _ _ hnone]
    rfl

/-- Witness for C7's amended statement at a call with one stream callback
and no terminal callback. -/
theorem missing_terminal_is_none_witness :
    ∃ ctx,
      call_gadget [9] (NativeBehavior.mk [NativeEvent.streamMsg [1]] true) =
        Except.ok ctx ∧ ctx.response = none ∧
      AssignmentContext.response (AssignmentContext.mk ctx) = none :=
  missing_terminal_is_none [9]
    (NativeBehavior.mk [NativeEvent.streamMsg [1]] true) rfl (by decide)

/-- C9 counterexample: a successful call whose terminal message carries
`free_variable_id_after = 0` is accepted unchanged, so the decoded terminal
outcome is smaller than `free_variable_id_before = 104`: the invariant is not
enforced by the code. -/
theorem free_variable_id_after_cex :
    inst104.free_variable_id_before = 104 ∧
    call_gadget (encodeInstanceMessage inst104)
        (NativeBehavior.mk [NativeEvent.responseMsg (encodeResponseMessage 0)] true) =
      Except.ok (CallbackContext.mk [] (some (encodeResponseMessage 0))) ∧
    AssignmentContext.response
        (AssignmentContext.mk
          (CallbackContext.mk [] (some (encodeResponseMessage 0)))) = some 0 ∧
    ¬ 104 ≤ 0 := by
  refine ⟨rfl, rfl, ?_, by decide⟩
  unfold AssignmentContext.response
  simp only [Option.bind]
  exact message_as_assignment_response_roundtrip 0 (by decide)

/-- C9 amended: the decoded terminal outcome's `free_variable_id_after` is
exactly the value carried by the terminal message, passed through without any
check against `free_variable_id_before`. -/
theorem free_variable_id_after_passthrough (v : Nat) (hv : v < 2 ^ 64)
    (ctx : CallbackContext) (h : ctx.response = some (encodeResponseMessage v)) :
    AssignmentContext.response (AssignmentContext.mk ctx) = some v := by
  unfold AssignmentContext.response
  rw [h]
  simp only [Option.bind]
  exact message_as_assignment_response_roundtrip v hv

/-- Witness for C9's amended statement at a terminal message carrying 5. -/
theorem free_variable_id_after_passthrough_witness :
    AssignmentContext.response
        (AssignmentContext.mk
          (CallbackContext.mk [] (some (encodeResponseMessage 5)))) = some 5 :=
  free_variable_id_after_passthrough 5 (by decide)
    (CallbackContext.mk [] (some (encodeResponseMessage 5))) rfl

end GadgetStandard
